import Mathlib

/-!
Verification development for the `rvn_util` repository: a shallow embedding of
its byte-level block-template construction, difficulty conversion, Merkle root,
script/opcode encoding, address handling and job protocol, together with
theorems settling the specification claims.

Conventions of the embedding:
* Rust machine integers are modelled as `Nat` with explicit `% 2 ^ w` at the
  points where the source performs an `as` cast or where wrap-around matters.
* Byte buffers (`Vec<u8>`, `[u8; N]`) are `List Nat`, each element a byte value.
* Fallible Rust computations returning `anyhow::Result` are modelled with
  `RResult`; a Rust `panic!` / `.unwrap()` abort is the distinct constructor
  `RResult.panic`, a returned `Err` is `RResult.err`.
* The wall clock read (`SystemTime::now`) is passed in as an explicit `now`
  parameter; `now() as u32` becomes `now % 2 ^ 32`.
* The external `sha2::Sha256` crate primitive is implemented concretely below
  (FIPS 180-4); the external Keccak-256 primitive used only by the seed-hash
  computation is a function parameter `kec`.
-/

/-- Result of a Rust computation: a value, a typed error (`anyhow::Error`
propagated with `?`/`bail!`), or a process abort (`panic!`, `.unwrap()`,
`.expect(..)`, out-of-range slice index). -/
inductive RResult (α : Type) where
  | ok : α → RResult α
  | err : String → RResult α
  | panic : String → RResult α
deriving DecidableEq, Repr

/-- Little-endian 4-byte encoding of a `u32` value (`LittleEndian::write_u32`);
values `≥ 2 ^ 32` wrap as the `as u32` cast would. -/
def u32LE (i : Nat) : List Nat :=
  [i % 256, i / 2 ^ 8 % 256, i / 2 ^ 16 % 256, i / 2 ^ 24 % 256]

/-- Little-endian 8-byte encoding of a `u64` value (`LittleEndian::write_u64`). -/
def u64LE (i : Nat) : List Nat :=
  [i % 256, i / 2 ^ 8 % 256, i / 2 ^ 16 % 256, i / 2 ^ 24 % 256,
   i / 2 ^ 32 % 256, i / 2 ^ 40 % 256, i / 2 ^ 48 % 256, i / 2 ^ 56 % 256]

/-- Big-endian 4-byte encoding of a `u32` value (`BigEndian::write_u32`). -/
def u32BE (i : Nat) : List Nat :=
  [i / 2 ^ 24 % 256, i / 2 ^ 16 % 256, i / 2 ^ 8 % 256, i % 256]

/-- Big-endian 8-byte encoding of a `u64` value (`BigEndian::write_u64`). -/
def u64BE (i : Nat) : List Nat :=
  [i / 2 ^ 56 % 256, i / 2 ^ 48 % 256, i / 2 ^ 40 % 256, i / 2 ^ 32 % 256,
   i / 2 ^ 24 % 256, i / 2 ^ 16 % 256, i / 2 ^ 8 % 256, i % 256]

/-- Big-endian read of a byte list as one number (`BigEndian::read_u32` when the
list has four elements). -/
def readBE (l : List Nat) : Nat :=
  l.foldl (fun acc b => acc * 256 + b) 0

/-- Lowercase hex digit for a nibble, as produced by `hex::encode`. -/
def hexDigitOf (d : Nat) : Char :=
  if d < 10 then Char.ofNat (48 + d) else Char.ofNat (87 + d)

/-- Hex encoding of a byte list (`hex::encode`): two lowercase digits per byte. -/
def hexEncode (bytes : List Nat) : String :=
  ⟨(bytes.map (fun b => [hexDigitOf (b / 16), hexDigitOf (b % 16)])).flatten⟩

/-- Value of one hex digit character; `hex::decode` accepts both cases. -/
def hexVal (c : Char) : Option Nat :=
  if '0' ≤ c ∧ c ≤ '9' then some (c.toNat - 48)
  else if 'a' ≤ c ∧ c ≤ 'f' then some (c.toNat - 87)
  else if 'A' ≤ c ∧ c ≤ 'F' then some (c.toNat - 55)
  else none

/-- Hex decoding of a character list: fails on odd length or a non-hex digit,
exactly as `hex::decode`. -/
def hexDecodeList : List Char → Option (List Nat)
  | [] => some []
  | [_] => none
  | a :: b :: rest =>
    match hexVal a, hexVal b, hexDecodeList rest with
    | some x, some y, some l => some ((16 * x + y) :: l)
    | _, _, _ => none

/-- Hex decoding of a string (`hex::decode`). -/
def hexDecode (s : String) : Option (List Nat) :=
  hexDecodeList s.data

section Sha256

/-- Rotate a 32-bit word right by `n` positions. -/
def rotr32 (n x : Nat) : Nat :=
  ((x >>> n) ||| (x <<< (32 - n))) % 2 ^ 32

/-- SHA-256 big sigma 0. -/
def bsig0 (x : Nat) : Nat := rotr32 2 x ^^^ rotr32 13 x ^^^ rotr32 22 x

/-- SHA-256 big sigma 1. -/
def bsig1 (x : Nat) : Nat := rotr32 6 x ^^^ rotr32 11 x ^^^ rotr32 25 x

/-- SHA-256 small sigma 0. -/
def ssig0 (x : Nat) : Nat := rotr32 7 x ^^^ rotr32 18 x ^^^ (x >>> 3)

/-- SHA-256 small sigma 1. -/
def ssig1 (x : Nat) : Nat := rotr32 17 x ^^^ rotr32 19 x ^^^ (x >>> 10)

/-- SHA-256 choice function. -/
def sha256Ch (e f g : Nat) : Nat := (e &&& f) ^^^ ((e ^^^ 0xFFFFFFFF) &&& g)

/-- SHA-256 majority function. -/
def sha256Maj (a b c : Nat) : Nat := (a &&& b) ^^^ (a &&& c) ^^^ (b &&& c)

/-- The 64 SHA-256 round constants. -/
def sha256K : List Nat :=
  [1116352408, 1899447441, 3049323471, 3921009573, 961987163,
   1508970993, 2453635748, 2870763221, 3624381080, 310598401,
   607225278, 1426881987, 1925078388, 2162078206, 2614888103,
   3248222580, 3835390401, 4022224774, 264347078, 604807628,
   770255983, 1249150122, 1555081692, 1996064986, 2554220882,
   2821834349, 2952996808, 3210313671, 3336571891, 3584528711,
   113926993, 338241895, 666307205, 773529912, 1294757372,
   1396182291, 1695183700, 1986661051, 2177026350, 2456956037,
   2730485921, 2820302411, 3259730800, 3345764771, 3516065817,
   3600352804, 4094571909, 275423344, 430227734, 506948616,
   659060556, 883997877, 958139571, 1322822218, 1537002063,
   1747873779, 1955562222, 2024104815, 2227730452, 2361852424,
   2428436474, 2756734187, 3204031479, 3329325298]

/-- The eight-word SHA-256 working state. -/
structure Sha256State where
  a : Nat
  b : Nat
  c : Nat
  d : Nat
  e : Nat
  f : Nat
  g : Nat
  h : Nat
deriving DecidableEq, Repr

/-- The SHA-256 initial hash value. -/
def sha256Init : Sha256State :=
  ⟨1779033703, 3144134277, 1013904242, 2773480762,
   1359893119, 2600822924, 528734635, 1541459225⟩

/-- SHA-256 padding: append `0x80`, zeros to 56 mod 64, then the bit length
as a big-endian 8-byte value. -/
def sha256Pad (msg : List Nat) : List Nat :=
  msg ++ [0x80] ++ List.replicate ((119 - msg.length % 64) % 64) 0
      ++ u64BE (8 * msg.length)

/-- Group consecutive 4-byte runs into big-endian 32-bit words. -/
def toWordsBE : List Nat → List Nat
  | a :: b :: c :: d :: rest => (((a * 256 + b) * 256 + c) * 256 + d) :: toWordsBE rest
  | _ => []

/-- Extend the 16 block words to the 64-entry message schedule. -/
def sha256Schedule (ws : List Nat) : List Nat :=
  (List.range 48).foldl
    (fun w _ =>
      w ++ [(ssig1 (w.getD (w.length - 2) 0) + w.getD (w.length - 7) 0 +
             ssig0 (w.getD (w.length - 15) 0) + w.getD (w.length - 16) 0) % 2 ^ 32])
    ws

/-- One SHA-256 compression round. -/
def sha256Round (s : Sha256State) (kw : Nat × Nat) : Sha256State :=
  let t1 := (s.h + bsig1 s.e + sha256Ch s.e s.f s.g + kw.1 + kw.2) % 2 ^ 32
  let t2 := (bsig0 s.a + sha256Maj s.a s.b s.c) % 2 ^ 32
  ⟨(t1 + t2) % 2 ^ 32, s.a, s.b, s.c, (s.d + t1) % 2 ^ 32, s.e, s.f, s.g⟩

/-- Compress one 64-byte block into the running state. -/
def sha256Block (s0 : Sha256State) (block : List Nat) : Sha256State :=
  let w := sha256Schedule (toWordsBE block)
  let s := (sha256K.zip w).foldl sha256Round s0
  ⟨(s0.a + s.a) % 2 ^ 32, (s0.b + s.b) % 2 ^ 32, (s0.c + s.c) % 2 ^ 32,
   (s0.d + s.d) % 2 ^ 32, (s0.e + s.e) % 2 ^ 32, (s0.f + s.f) % 2 ^ 32,
   (s0.g + s.g) % 2 ^ 32, (s0.h + s.h) % 2 ^ 32⟩

/-- Split a padded message into 64-byte blocks; the first argument is fuel,
always called with the list length. -/
def toBlocks : Nat → List Nat → List (List Nat)
  | 0, _ => []
  | _ + 1, [] => []
  | fuel + 1, l => l.take 64 :: toBlocks fuel (l.drop 64)

/-- SHA-256 digest of a byte list: the concrete implementation of the external
`sha2::Sha256` primitive. -/
def sha256 (msg : List Nat) : List Nat :=
  let padded := sha256Pad msg
  let s := (toBlocks padded.length padded).foldl sha256Block sha256Init
  u32BE s.a ++ u32BE s.b ++ u32BE s.c ++ u32BE s.d ++
  u32BE s.e ++ u32BE s.f ++ u32BE s.g ++ u32BE s.h

end Sha256

/-- Double SHA-256 (`dsha256` in `block_template.rs`): two sequential passes. -/
def dsha256 (data : List Nat) : List Nat :=
  sha256 (sha256 data)

/-- A SHA-256 digest is always 32 bytes. -/
theorem sha256_length (msg : List Nat) : (sha256 msg).length = 32 := by
  simp [sha256, u32BE]

/-- A double-SHA-256 digest is always 32 bytes. -/
theorem dsha256_length (data : List Nat) : (dsha256 data).length = 32 := by
  simp [dsha256, sha256_length]

namespace OpData

/-- Embedding of `OpData::push_u8`: append one byte (`Vec::push`). -/
def push_u8 (inner : List Nat) (data : Nat) : List Nat :=
  inner ++ [data % 256]

/-- Embedding of `OpData::push_u32`: append a `u32` little-endian. -/
def push_u32 (inner : List Nat) (i : Nat) : List Nat :=
  inner ++ u32LE i

/-- Embedding of `OpData::push_u64`: append a `u64` little-endian. -/
def push_u64 (inner : List Nat) (i : Nat) : List Nat :=
  inner ++ u64LE i

/-- Embedding of `OpData::push_slice`: append raw bytes. -/
def push_slice (inner : List Nat) (data : List Nat) : List Nat :=
  inner ++ data

/-- Embedding of `OpData::op_push_slice`: append a script-push opcode prefix
for the data length, then the raw bytes; `none` models the
`panic!("tried to put a 4bn+ sized object into a script!")` abort.
Where the source casts with `as u8` the value is reduced `% 0x100`. -/
def op_push_slice (inner : List Nat) (data : List Nat) : Option (List Nat) :=
  let n := data.length
  if n < 0x4c then
    some (inner ++ [n % 0x100] ++ data)
  else if n < 0x100 then
    some (inner ++ [0x4c, n % 0x100] ++ data)
  else if n < 0x10000 then
    some (inner ++ [0x4d, n % 0x100, (n / 0x100) % 0x100] ++ data)
  else if n < 0x100000000 then
    some (inner ++ [0x4e, n % 0x100, (n / 0x100) % 0x100,
                    (n / 0x10000) % 0x100, (n / 0x1000000) % 0x100] ++ data)
  else none

end OpData

namespace Script

/-- Embedding of `Script::coinbase_script`: BIP34 height bytes trimmed at the
first zero byte (all four if none), script-pushed, a literal zero byte, then
the script-push of the pool tag bytes. The source wraps the result in `Ok`;
the only failure is the push-size panic, modelled by `none`. -/
def coinbase_script (height : Nat) (arbitrary_data : List Nat) : Option (List Nat) :=
  let bip34_height := u32LE height
  let bip34_len := (bip34_height.findIdx? (· == 0)).getD 4
  (OpData.op_push_slice [] (bip34_height.take bip34_len)).bind fun d =>
    OpData.op_push_slice (OpData.push_u8 d 0) arbitrary_data

end Script

section Diff

/-- Embedding of `bits2target` (`diff.rs`): compact-bits to 256-bit target.
`Uint256` values are naturals reduced `% 2 ^ 256`; `Default::default()` is 0
and `<<` is the wrapping 256-bit left shift. -/
def bits2target (bits : Nat) : Nat :=
  let unshifted_expt := bits >>> 24
  let mant :=
    if unshifted_expt ≤ 3 then (bits &&& 0xFFFFFF) >>> (8 * (3 - unshifted_expt))
    else bits &&& 0xFFFFFF
  let expt := if unshifted_expt ≤ 3 then 0 else 8 * (unshifted_expt - 3)
  if mant > 0x7FFFFF then 0 else (mant <<< expt) % 2 ^ 256

/-- Embedding of `unit_target` (`diff.rs`): `0xFFFF << 208` as a `Uint256`. -/
def unit_target : Nat :=
  (0xFFFF <<< 208) % 2 ^ 256

/-- Embedding of `diff2target` (`diff.rs`): difficulty 0 gives the all-ones
256-bit value (`Uint256` with four maximal limbs); otherwise the truncating
unsigned division of `unit_target` by the difficulty. -/
def diff2target (diff : Nat) : Nat :=
  if diff = 0 then 2 ^ 256 - 1
  else unit_target / diff

end Diff

section Base58

/-- The Bitcoin base58 alphabet used by the `bs58` crate. -/
def base58Alphabet : List Char :=
  "123456789ABCDEFGHJKLMNPQRSTUVWXYZabcdefghijkmnopqrstuvwxyz".data

/-- Index of a character in the base58 alphabet, if it belongs to it. -/
def b58Val (c : Char) : Option Nat :=
  base58Alphabet.findIdx? (· == c)

/-- Accumulate the big-number value of a base58 digit string. -/
def b58Num : List Char → Nat → Option Nat
  | [], acc => some acc
  | c :: cs, acc =>
    match b58Val c with
    | none => none
    | some v => b58Num cs (acc * 58 + v)

/-- Number of leading `'1'` characters (each encodes one leading zero byte). -/
def b58Zeros : List Char → Nat
  | '1' :: cs => b58Zeros cs + 1
  | _ => 0

/-- Big-endian bytes of a natural number; the first argument is fuel, always
called with the number itself (which bounds the byte count). -/
def natToBEBytesAux : Nat → Nat → List Nat
  | 0, _ => []
  | fuel + 1, n => if n = 0 then [] else natToBEBytesAux fuel (n / 256) ++ [n % 256]

/-- Minimal big-endian byte representation of a natural number. -/
def natToBEBytes (n : Nat) : List Nat :=
  natToBEBytesAux n n

/-- Model of the `bs58` crate checked decode (`decode(..).with_check(None)`):
base58 digits to bytes, then split off the trailing 4-byte checksum and verify
it is the leading 4 bytes of the double SHA-256 of the payload. Returns the
payload without the checksum. -/
def b58check_decode (s : String) : Option (List Nat) :=
  match b58Num s.data 0 with
  | none => none
  | some n =>
    let bytes := List.replicate (b58Zeros s.data) 0 ++ natToBEBytes n
    if bytes.length < 4 then none
    else
      let payload := bytes.take (bytes.length - 4)
      let check := bytes.drop (bytes.length - 4)
      if (dsha256 payload).take 4 = check then some payload else none

end Base58

/-- Embedding of the `Address` struct (`address.rs`): the stored display string
and the network flag derived from the leading payload byte. -/
structure Address where
  inner : String
  testnet : Bool
deriving DecidableEq, Repr

namespace Address

/-- Embedding of `Address::from_str`: checked base58 decode (`?`-propagated as
a typed error), then the network byte test; byte 111 is testnet, byte 60 is
mainnet, anything else is the `bail!("Invalid Address")` typed error. Indexing
`checker[0]` on an empty payload is a panic. -/
def from_str (s : String) : RResult Address :=
  match b58check_decode s with
  | none => .err "base58 decode error"
  | some checker =>
    match checker with
    | [] => .panic "index out of range"
    | c0 :: _ =>
      if c0 = 111 then .ok ⟨s, true⟩
      else if c0 = 60 then .ok ⟨s, false⟩
      else .err "Invalid Address"

/-- Embedding of `Address::vout_to_miner`: re-decode the stored string with
`.unwrap()` (decode failure panics, modelled `none`), then build
`0x76 0xa9 0x14 ++ checker[1..] ++ 0x88 0xac`; slicing `checker[1..]` of an
empty payload is also a panic. -/
def vout_to_miner (a : Address) : Option (List Nat) :=
  match b58check_decode a.inner with
  | none => none
  | some checker =>
    if checker = [] then none
    else some ([0x76, 0xa9, 0x14] ++ checker.drop 1 ++ [0x88, 0xac])

end Address

section Merkle

/-- Inner pairing loop of `merkel_hash`: pop two front elements and emit the
double hash of their concatenation until the level is consumed. The level
always has even length when this runs (the odd case was padded). -/
def pairStep : List (List Nat) → List (List Nat)
  | [] => []
  | [_] => []
  | a :: b :: rest => dsha256 (a ++ b) :: pairStep rest

/-- One iteration of the outer `while` loop of `merkel_hash`: duplicate the
back element when the level count is odd, then pair-and-hash. -/
def merkelRound (l : List (List Nat)) : List (List Nat) :=
  pairStep (if l.length % 2 = 1 then l ++ [l.getLastD []] else l)

/-- Length of the paired level is half the (even) level length. -/
theorem pairStep_length (l : List (List Nat)) : (pairStep l).length = l.length / 2 := by
  match l with
  | [] => simp [pairStep]
  | [x] => simp [pairStep]
  | a :: b :: rest =>
    have ih := pairStep_length rest
    simp [pairStep, ih]
    omega

/-- One merkle round strictly shrinks a level of two or more elements and
leaves it nonempty. -/
theorem merkelRound_length (l : List (List Nat)) (h : 2 ≤ l.length) :
    1 ≤ (merkelRound l).length ∧ (merkelRound l).length < l.length := by
  unfold merkelRound
  split <;> simp [pairStep_length] <;> omega

/-- The outer `while txids.len() > 1` loop of `merkel_hash`. -/
def merkelLoop (l : List (List Nat)) : List (List Nat) :=
  if h : 1 < l.length then merkelLoop (merkelRound l) else l
termination_by l.length
decreasing_by exact (merkelRound_length l h).2

/-- Embedding of `merkel_hash` (`merkle.rs`): double hash of nothing for an
empty list, the sole element for a singleton, otherwise the loop result's
front element. -/
def merkel_hash (txids : List (List Nat)) : List Nat :=
  if txids = [] then dsha256 []
  else if txids.length = 1 then txids.headD []
  else (merkelLoop txids).headD []

/-- Modelled from the claim text for comparison with `merkel_hash`: empty list
gives the double hash of the empty byte sequence, a single element is returned
unchanged, otherwise the level is padded to even count by duplicating its last
element, consecutive pairs are double-hashed into the next level, and the
process repeats until one element remains. -/
def merkleSpec (l : List (List Nat)) : List Nat :=
  if l = [] then dsha256 []
  else if l.length = 1 then l.headD []
  else merkleSpec (merkelRound l)
termination_by l.length
decreasing_by
  rename_i h1 h2
  have hl : 2 ≤ l.length := by
    have := List.length_pos.mpr h1
    omega
  exact (merkelRound_length l hl).2

end Merkle

section Job

/-- Embedding of `nonce` (`job.rs`): a 12-byte field, the 32-bit job id
big-endian first, the 64-bit miner index big-endian after, hex-encoded. -/
def nonce (miner_index : Nat) (job_id : Nat) : String :=
  hexEncode (u32BE job_id ++ u64BE miner_index)

/-- Embedding of `job_id_from_nonce` (`job.rs`): hex-decode with `.unwrap()`
(panic on failure), then read the first four bytes big-endian; slicing
`[0..4]` of a shorter buffer is a panic. -/
def job_id_from_nonce (s : String) : RResult Nat :=
  match hexDecode s with
  | none => .panic "hex decode unwrap"
  | some bytes =>
    if 4 ≤ bytes.length then .ok (readBE (bytes.take 4))
    else .panic "index out of range"

end Job

section BlockTemplateDefs

/-- Embedding of the RPC `Transaction` record (`block_template.rs`); only the
fields the core reads (`data`, `txid`) are modelled, the unread numeric
fields (`hash`, `fee`, `sigops`, `weight`, `depends`) are omitted. -/
structure Transaction where
  data : String
  txid : String
deriving DecidableEq, Repr

/-- Embedding of `BlockTemplateInfo` (`block_template.rs`); only the fields the
core reads are modelled, the unread RPC bookkeeping fields (`capabilities`,
`rules`, `vbavailable`, `vbrequired`, `coinbase_aux`, `long_poll_id`,
`mintime`, `mutable`, `noncerange`, limits, `cur_time`) are omitted. -/
structure BlockTemplateInfo where
  version : Nat
  previousblockhash : String
  transactions : List Transaction
  coinbasevalue : Nat
  target : String
  bits : String
  height : Nat
  default_witness_commitment : String
deriving DecidableEq, Repr

/-- Embedding of the `BlockTemplate` struct (`block_template.rs`); the pool tag
`pool_info` is carried as its UTF-8 bytes. -/
structure BlockTemplate where
  pool_addr : Address
  pool_info : List Nat
  coinbase_tx : List Nat
  coinbase_txid : List Nat
  seed_hash : List Nat
  header : List Nat
  header_hash : List Nat
  prev_hash : List Nat
  timestamp : Nat
  external_txs : List String
  target_hex : String
  bits_hex : String
  witness_hex : String
  version : Nat
  height : Nat
deriving DecidableEq, Repr

/-- The `KAWPOW_EPOCH_LENGTH` constant. -/
def KAWPOW_EPOCH_LENGTH : Nat := 7500

namespace BlockTemplate

/-- Embedding of `BlockTemplate::coinbase_txin`: 32 zero bytes, 4 bytes `0xff`,
the script length cast `as u8` (so reduced `% 256`), the script bytes, then
4 bytes `0xff`. Total, never fails. -/
def coinbase_txin (script : List Nat) : List Nat :=
  List.replicate 32 0 ++ List.replicate 4 0xff ++ [script.length % 256]
    ++ script ++ List.replicate 4 0xff

/-- Embedding of `BlockTemplate::seed_hash`: 32 zero bytes below the epoch
length, otherwise the external Keccak-256 primitive `kec` iterated
`height / 7500` times on the zero seed. -/
def seedHash (kec : List Nat → List Nat) (height : Nat) : List Nat :=
  if height < KAWPOW_EPOCH_LENGTH then List.replicate 32 0
  else kec^[height / KAWPOW_EPOCH_LENGTH] (List.replicate 32 0)

/-- The witness-carrying coinbase serialization built in `BlockTemplate::new`
(lines 99-110); `none` models the script-push size panic. -/
def coinbaseTxBytes (txin vout wit : List Nat) (value : Nat) : Option (List Nat) :=
  (OpData.op_push_slice
      (OpData.push_u64
        (OpData.push_u8
          (OpData.push_slice (OpData.push_slice (OpData.push_u32 [] 1) [0x00, 0x01, 0x01]) txin)
          0x02)
        value)
      vout).bind fun d1 =>
    (OpData.op_push_slice (OpData.push_slice d1 (List.replicate 8 0)) wit).map fun d2 =>
      OpData.push_slice
        (OpData.push_slice (OpData.push_slice d2 [0x01, 0x20]) (List.replicate 32 0))
        (List.replicate 4 0)

/-- The witness-free id serialization built in `BlockTemplate::new`
(lines 113-122); `none` models the script-push size panic. -/
def coinbaseNoWitBytes (txin vout wit : List Nat) (value : Nat) : Option (List Nat) :=
  (OpData.op_push_slice
      (OpData.push_u64
        (OpData.push_u8
          (OpData.push_slice (OpData.push_u8 (OpData.push_u32 [] 1) 0x01) txin)
          0x02)
        value)
      vout).bind fun d1 =>
    (OpData.op_push_slice (OpData.push_slice d1 (List.replicate 8 0)) wit).map fun d2 =>
      OpData.push_slice d2 (List.replicate 4 0)

/-- The external transaction id decoding of `BlockTemplate::new` (lines
126-134): hex-decode each display id (`.expect`, panic on failure), reverse it
into internal order, and demand exactly 32 bytes (`try_into().unwrap()`,
panic otherwise). -/
def decodeTxids : List Transaction → Option (List (List Nat))
  | [] => some []
  | t :: rest =>
    match hexDecode t.txid with
    | none => none
    | some h =>
      if h.reverse.length = 32 then (decodeTxids rest).map (h.reverse :: ·)
      else none

/-- Embedding of `BlockTemplate::new` (`block_template.rs` lines 87-181),
step by step in source order. `kec` is the external Keccak-256 primitive used
only for the seed hash; `now` is the wall-clock read, truncated `as u32`.
Typed `anyhow` errors (the `?` on the witness-commitment hex decode) map to
`.err`; `.unwrap()`/`.expect` aborts map to `.panic`. -/
def new (kec : List Nat → List Nat) (now : Nat) (template_info : BlockTemplateInfo)
    (pool_addr : Address) (pool_info : List Nat) : RResult BlockTemplate :=
  let seed := seedHash kec template_info.height
  match Script.coinbase_script template_info.height pool_info with
  | none => .panic "tried to put a 4bn+ sized object into a script!"
  | some script =>
    let txin := coinbase_txin script
    match Address.vout_to_miner pool_addr with
    | none => .panic "base58 unwrap"
    | some vout =>
      match hexDecode template_info.default_witness_commitment with
      | none => .err "hex decode error"
      | some witness_vout =>
        match coinbaseTxBytes txin vout witness_vout template_info.coinbasevalue with
        | none => .panic "tried to put a 4bn+ sized object into a script!"
        | some coinbase_tx =>
          match coinbaseNoWitBytes txin vout witness_vout template_info.coinbasevalue with
          | none => .panic "tried to put a 4bn+ sized object into a script!"
          | some coinbase_no_wit =>
            let coinbase_txid := dsha256 coinbase_no_wit
            match decodeTxids template_info.transactions with
            | none => .panic "invalid txid"
            | some txids2 =>
              let merkle := merkel_hash (coinbase_txid :: txids2)
              let ts := now % 2 ^ 32
              match hexDecode template_info.previousblockhash with
              | none => .panic "previousblockhash hex unwrap"
              | some ph =>
                match hexDecode template_info.bits with
                | none => .panic "bits hex unwrap"
                | some bh =>
                  let header :=
                    OpData.push_u32
                      (OpData.push_slice
                        (OpData.push_u32
                          (OpData.push_slice
                            (OpData.push_slice (OpData.push_u32 [] template_info.version)
                              ph.reverse)
                            merkle)
                          ts)
                        bh.reverse)
                      template_info.height
                  .ok { pool_addr := pool_addr
                        pool_info := pool_info
                        coinbase_tx := coinbase_tx
                        coinbase_txid := coinbase_txid
                        seed_hash := seed
                        header := header
                        header_hash := (dsha256 header).reverse
                        prev_hash := ph.reverse
                        timestamp := ts
                        external_txs := template_info.transactions.map (·.data)
                        target_hex := template_info.target
                        bits_hex := template_info.bits
                        witness_hex := template_info.default_witness_commitment
                        version := template_info.version
                        height := template_info.height }

/-- Wrapping `u32` subtraction, the release-profile semantics of
`now() - self.timestamp` on `u32` operands. -/
def wrapSub32 (a b : Nat) : Nat :=
  (a % 2 ^ 32 + (2 ^ 32 - b % 2 ^ 32)) % 2 ^ 32

/-- Embedding of `BlockTemplate::is_new_template`: held height differs, or the
wrapping 32-bit difference between the current wall clock (`as u32`) and the
capture timestamp exceeds 60, or the witness commitment differs. -/
def is_new_template (bt : BlockTemplate) (template_info : BlockTemplateInfo)
    (now : Nat) : Bool :=
  bt.height != template_info.height
    || wrapSub32 (now % 2 ^ 32) bt.timestamp > 60
    || bt.witness_hex != template_info.default_witness_commitment

end BlockTemplate

end BlockTemplateDefs

section Helpers

/-- Decoding the encoding of one nibble gives it back. -/
theorem hexVal_hexDigitOf (d : Nat) (hd : d < 16) : hexVal (hexDigitOf d) = some d := by
  interval_cases d <;> decide

/-- Decoding the hex encoding of a byte list (all elements below 256) gives the
list back. -/
theorem hexDecodeList_encode (bytes : List Nat) (h : ∀ b ∈ bytes, b < 256) :
    hexDecodeList ((bytes.map (fun b => [hexDigitOf (b / 16), hexDigitOf (b % 16)])).flatten)
      = some bytes := by
  induction bytes with
  | nil => rfl
  | cons b t ih =>
    have hb : b < 256 := h b (by simp)
    have h1 : hexVal (hexDigitOf (b / 16)) = some (b / 16) := hexVal_hexDigitOf _ (by omega)
    have h2 : hexVal (hexDigitOf (b % 16)) = some (b % 16) := hexVal_hexDigitOf _ (by omega)
    have ih2 := ih (fun x hx => h x (by simp [hx]))
    simp only [List.map_cons, List.flatten_cons, List.cons_append, List.append_eq,
      List.nil_append, hexDecodeList, h1, h2, ih2]
    have hb16 : 16 * (b / 16) + b % 16 = b := by omega
    show some ((16 * (b / 16) + b % 16) :: t) = some (b :: t)
    rw [hb16]

/-- Hex round trip on strings. -/
theorem hexDecode_hexEncode (bytes : List Nat) (h : ∀ b ∈ bytes, b < 256) :
    hexDecode (hexEncode bytes) = some bytes := by
  unfold hexDecode hexEncode
  exact hexDecodeList_encode bytes h

/-- A script push succeeds exactly below the 4-byte-length limit. -/
theorem op_push_slice_isSome (inner data : List Nat) (h : data.length < 0x100000000) :
    ∃ r, OpData.op_push_slice inner data = some r := by
  simp only [OpData.op_push_slice]
  repeat' split
  any_goals exact ⟨_, rfl⟩

/-- The coinbase script construction succeeds whenever the pool tag fits the
script-push format. -/
theorem coinbase_script_isSome (height : Nat) (tag : List Nat)
    (h : tag.length < 0x100000000) : ∃ s, Script.coinbase_script height tag = some s := by
  simp only [Script.coinbase_script]
  obtain ⟨r1, hr1⟩ := op_push_slice_isSome []
    ((u32LE height).take (((u32LE height).findIdx? (· == 0)).getD 4))
    (by
      simp only [List.length_take, u32LE, List.length_cons, List.length_nil]
      omega)
  rw [hr1]
  simpa using op_push_slice_isSome (OpData.push_u8 r1 0) tag h

/-- The witness-carrying coinbase serialization succeeds whenever both pushed
slices fit the script-push format. -/
theorem coinbaseTxBytes_isSome (txin vout wit : List Nat) (value : Nat)
    (hv : vout.length < 0x100000000) (hw : wit.length < 0x100000000) :
    ∃ r, BlockTemplate.coinbaseTxBytes txin vout wit value = some r := by
  unfold BlockTemplate.coinbaseTxBytes
  obtain ⟨r1, hr1⟩ := op_push_slice_isSome
    (OpData.push_u64 (OpData.push_u8 (OpData.push_slice
      (OpData.push_slice (OpData.push_u32 [] 1) [0x00, 0x01, 0x01]) txin) 0x02) value)
    vout hv
  rw [hr1, Option.some_bind]
  obtain ⟨r2, hr2⟩ := op_push_slice_isSome (OpData.push_slice r1 (List.replicate 8 0)) wit hw
  rw [hr2, Option.map_some']
  exact ⟨_, rfl⟩

/-- The id serialization succeeds whenever both pushed slices fit the
script-push format. -/
theorem coinbaseNoWitBytes_isSome (txin vout wit : List Nat) (value : Nat)
    (hv : vout.length < 0x100000000) (hw : wit.length < 0x100000000) :
    ∃ r, BlockTemplate.coinbaseNoWitBytes txin vout wit value = some r := by
  unfold BlockTemplate.coinbaseNoWitBytes
  obtain ⟨r1, hr1⟩ := op_push_slice_isSome
    (OpData.push_u64 (OpData.push_u8 (OpData.push_slice
      (OpData.push_u8 (OpData.push_u32 [] 1) 0x01) txin) 0x02) value)
    vout hv
  rw [hr1, Option.some_bind]
  obtain ⟨r2, hr2⟩ := op_push_slice_isSome (OpData.push_slice r1 (List.replicate 8 0)) wit hw
  rw [hr2, Option.map_some']
  exact ⟨_, rfl⟩

/-- Every element of a paired level is a 32-byte digest. -/
theorem pairStep_mem32 : ∀ (l : List (List Nat)) (x : List Nat), x ∈ pairStep l → x.length = 32 := by
  intro l
  match l with
  | [] => simp [pairStep]
  | [a] => simp [pairStep]
  | a :: b :: rest =>
    intro x hx
    simp only [pairStep, List.mem_cons] at hx
    rcases hx with rfl | hx
    · exact dsha256_length _
    · exact pairStep_mem32 rest x hx

/-- Every element of a merkle round output is a 32-byte digest. -/
theorem merkelRound_mem32 (l : List (List Nat)) (x : List Nat) (hx : x ∈ merkelRound l) :
    x.length = 32 := by
  unfold merkelRound at hx
  exact pairStep_mem32 _ x hx

/-- The loop of `merkel_hash` collapses any nonempty level to the singleton
holding the claim-text recursion's value. -/
theorem merkelLoop_eq (l : List (List Nat)) (h : 1 ≤ l.length) :
    merkelLoop l = [merkleSpec l] := by
  by_cases h1 : 1 < l.length
  · have hr := merkelRound_length l (by omega)
    have ih := merkelLoop_eq (merkelRound l) hr.1
    rw [merkelLoop, dif_pos h1, ih]
    have hne : l ≠ [] := by
      intro he
      rw [he] at h1
      simp at h1
    conv_rhs => rw [merkleSpec]
    rw [if_neg hne, if_neg (by omega)]
  · obtain ⟨x, rfl⟩ : ∃ x, l = [x] := List.length_eq_one.mp (by omega)
    rw [merkelLoop, dif_neg (by simp), merkleSpec]
    simp
termination_by l.length
decreasing_by exact hr.2

/-- The claim-text merkle recursion yields a 32-byte digest on a nonempty level
of 32-byte entries. -/
theorem merkleSpec_length32 (l : List (List Nat)) (h : 1 ≤ l.length)
    (h32 : ∀ x ∈ l, x.length = 32) : (merkleSpec l).length = 32 := by
  by_cases h1 : 1 < l.length
  · have hr := merkelRound_length l (by omega)
    have hne : l ≠ [] := by
      intro he
      rw [he] at h1
      simp at h1
    rw [merkleSpec, if_neg hne, if_neg (by omega)]
    exact merkleSpec_length32 (merkelRound l) hr.1 (fun x hx => merkelRound_mem32 l x hx)
  · obtain ⟨x, rfl⟩ : ∃ x, l = [x] := List.length_eq_one.mp (by omega)
    rw [merkleSpec]
    simpa using h32 x (by simp)
termination_by l.length
decreasing_by exact hr.2

/-- The merkle root of a list of 32-byte ids is 32 bytes. -/
theorem merkel_hash_length32 (l : List (List Nat)) (h32 : ∀ x ∈ l, x.length = 32) :
    (merkel_hash l).length = 32 := by
  unfold merkel_hash
  by_cases h0 : l = []
  · rw [if_pos h0]
    exact dsha256_length []
  rw [if_neg h0]
  by_cases h1 : l.length = 1
  · rw [if_pos h1]
    obtain ⟨x, rfl⟩ : ∃ x, l = [x] := List.length_eq_one.mp h1
    simpa using h32 x (by simp)
  · rw [if_neg h1, merkelLoop_eq l (by have := List.length_pos.mpr h0; omega)]
    simpa using merkleSpec_length32 l (by have := List.length_pos.mpr h0; omega) h32

/-- Every id produced by the external transaction decoding step is 32 bytes. -/
theorem decodeTxids_mem32 : ∀ (ts : List Transaction) (l : List (List Nat)),
    BlockTemplate.decodeTxids ts = some l → ∀ x ∈ l, x.length = 32 := by
  intro ts
  induction ts with
  | nil =>
    intro l h
    simp only [BlockTemplate.decodeTxids, Option.some.injEq] at h
    subst h
    simp
  | cons t rest ih =>
    intro l h
    rw [BlockTemplate.decodeTxids] at h
    split at h
    · exact Option.noConfusion h
    · split at h
      · rename_i h32
        obtain ⟨l2, hrest, hl⟩ := Option.map_eq_some'.mp h
        subst hl
        intro x hx
        rcases List.mem_cons.mp hx with rfl | hx2
        · exact h32
        · exact ih l2 hrest x hx2
      · exact Option.noConfusion h

end Helpers

section ClaimsBatch1

/-- C1 counterexample: at compact bits `0x02FFFFFF` the exponent byte is 2 and
the raw mantissa `0xFFFFFF` exceeds `0x7FFFFF`, yet `bits2target` returns
`0xFFFF` rather than the 0 the claim requires: the source applies the sign-bit
check to the mantissa after the right shift, not to the raw mantissa. -/
theorem bits2target_claim_cex :
    0x02FFFFFF >>> 24 ≤ 3 ∧ 0x02FFFFFF &&& 0xFFFFFF > 0x7FFFFF ∧
    bits2target 0x02FFFFFF = 0xFFFF ∧ (0xFFFF : Nat) ≠ 0 := by
  decide

/-- C1 (amended): for a 32-bit compact value with exponent byte `e` and raw
mantissa `m`, the sign-bit zero check applies to the mantissa after shifting:
when `e ≤ 3` the result is `m >>> (8*(3-e))` unless that shifted value itself
exceeds `0x7FFFFF` (possible only when `e = 3`), in which case it is 0; when
`e < 3` the result is always the plain shift; when `e > 3` the result is 0 for
`m > 0x7FFFFF` and otherwise the 256-bit wrapping shift `m <<< (8*(e-3))`. -/
theorem bits2target_spec (bits : Nat) (hb : bits < 2 ^ 32) :
    (bits >>> 24 ≤ 3 →
      bits2target bits =
        if 0x7FFFFF < (bits &&& 0xFFFFFF) >>> (8 * (3 - (bits >>> 24))) then 0
        else (bits &&& 0xFFFFFF) >>> (8 * (3 - (bits >>> 24)))) ∧
    (bits >>> 24 < 3 →
      bits2target bits = (bits &&& 0xFFFFFF) >>> (8 * (3 - (bits >>> 24)))) ∧
    (3 < bits >>> 24 →
      bits2target bits =
        if 0x7FFFFF < bits &&& 0xFFFFFF then 0
        else ((bits &&& 0xFFFFFF) <<< (8 * ((bits >>> 24) - 3))) % 2 ^ 256) := by
  have hm : bits &&& 0xFFFFFF < 2 ^ 24 := Nat.and_lt_two_pow bits (by norm_num)
  refine ⟨fun he => ?_, fun he => ?_, fun he => ?_⟩
  · simp only [bits2target, if_pos he]
    have hs : (bits &&& 0xFFFFFF) >>> (8 * (3 - (bits >>> 24))) < 2 ^ 24 := by
      rw [Nat.shiftRight_eq_div_pow]
      exact lt_of_le_of_lt (Nat.div_le_self _ _) hm
    by_cases hgt : 0x7FFFFF < (bits &&& 0xFFFFFF) >>> (8 * (3 - (bits >>> 24)))
    · rw [if_pos hgt, if_pos hgt]
    · rw [if_neg hgt, if_neg hgt, Nat.shiftLeft_zero,
        Nat.mod_eq_of_lt (lt_trans hs (by norm_num))]
  · have he3 : bits >>> 24 ≤ 3 := by omega
    simp only [bits2target, if_pos he3]
    have h1 : (2 : Nat) ^ 8 ≤ 2 ^ (8 * (3 - (bits >>> 24))) :=
      Nat.pow_le_pow_right (by norm_num) (by omega)
    have h2 : (bits &&& 0xFFFFFF) / 2 ^ (8 * (3 - (bits >>> 24)))
        ≤ (bits &&& 0xFFFFFF) / 2 ^ 8 :=
      Nat.div_le_div_left h1 (by positivity)
    have h3 : (bits &&& 0xFFFFFF) / 2 ^ 8 < 2 ^ 16 :=
      Nat.div_lt_of_lt_mul (by norm_num at hm ⊢; omega)
    have hs : (bits &&& 0xFFFFFF) >>> (8 * (3 - (bits >>> 24))) < 2 ^ 16 := by
      rw [Nat.shiftRight_eq_div_pow]
      exact lt_of_le_of_lt h2 h3
    rw [if_neg (by omega), Nat.shiftLeft_zero,
      Nat.mod_eq_of_lt (lt_trans hs (by norm_num))]
  · simp only [bits2target, if_neg (show ¬ bits >>> 24 ≤ 3 by omega)]

/-- C1 witness: the amended statement instantiated at the well-known compact
value `0x1d00ffff` (exponent 29, mantissa `0xffff`). -/
theorem bits2target_spec_witness :
    (0x1d00ffff : Nat) < 2 ^ 32 ∧
    bits2target 0x1d00ffff =
      if 0x7FFFFF < 0x1d00ffff &&& 0xFFFFFF then 0
      else ((0x1d00ffff &&& 0xFFFFFF) <<< (8 * ((0x1d00ffff >>> 24) - 3))) % 2 ^ 256 :=
  ⟨by norm_num, (bits2target_spec 0x1d00ffff (by norm_num)).2.2 (by decide)⟩

/-- C4: `op_push_slice` appends exactly one length byte below `0x4c`, the
`0x4c` marker and one length byte below `0x100`, the `0x4d` marker and a
little-endian 2-byte length below `0x10000`, the `0x4e` marker and a
little-endian 4-byte length below `0x100000000`, and aborts (never truncating
the length field) for anything larger. -/
theorem op_push_slice_spec (inner data : List Nat) :
    (data.length < 0x4c →
      OpData.op_push_slice inner data = some (inner ++ [data.length] ++ data)) ∧
    (0x4c ≤ data.length → data.length < 0x100 →
      OpData.op_push_slice inner data = some (inner ++ [0x4c, data.length] ++ data)) ∧
    (0x100 ≤ data.length → data.length < 0x10000 →
      OpData.op_push_slice inner data =
        some (inner ++ [0x4d, data.length % 0x100, data.length / 0x100] ++ data)) ∧
    (0x10000 ≤ data.length → data.length < 0x100000000 →
      OpData.op_push_slice inner data =
        some (inner ++ [0x4e, data.length % 0x100, data.length / 0x100 % 0x100,
                        data.length / 0x10000 % 0x100, data.length / 0x1000000] ++ data)) ∧
    (0x100000000 ≤ data.length → OpData.op_push_slice inner data = none) := by
  simp only [OpData.op_push_slice]
  refine ⟨fun h1 => ?_, fun h1 h2 => ?_, fun h1 h2 => ?_, fun h1 h2 => ?_, fun h1 => ?_⟩
  · rw [if_pos h1, Nat.mod_eq_of_lt (show data.length < 0x100 by omega)]
  · rw [if_neg (by omega), if_pos h2, Nat.mod_eq_of_lt (show data.length < 0x100 by omega)]
  · rw [if_neg (by omega), if_neg (by omega), if_pos h2,
      Nat.mod_eq_of_lt (show data.length / 0x100 < 0x100 by omega)]
  · rw [if_neg (by omega), if_neg (by omega), if_neg (by omega), if_pos h2,
      Nat.mod_eq_of_lt (show data.length / 0x1000000 < 0x100 by omega)]
  · rw [if_neg (by omega), if_neg (by omega), if_neg (by omega), if_neg (by omega)]

/-- C4 witness: one concrete slice per encoding arm, including the abort arm. -/
theorem op_push_slice_spec_witness :
    OpData.op_push_slice [9] (List.replicate 3 5) =
      some ([9] ++ [(List.replicate 3 5 : List Nat).length] ++ List.replicate 3 5) ∧
    OpData.op_push_slice [] (List.replicate 0x4c 0) =
      some ([] ++ [0x4c, (List.replicate 0x4c 0 : List Nat).length] ++ List.replicate 0x4c 0) ∧
    OpData.op_push_slice [] (List.replicate 0x100 0) =
      some ([] ++ [0x4d, (List.replicate 0x100 0 : List Nat).length % 0x100,
                   (List.replicate 0x100 0 : List Nat).length / 0x100] ++ List.replicate 0x100 0) ∧
    OpData.op_push_slice [] (List.replicate 0x10000 0) =
      some ([] ++ [0x4e, (List.replicate 0x10000 0 : List Nat).length % 0x100,
                   (List.replicate 0x10000 0 : List Nat).length / 0x100 % 0x100,
                   (List.replicate 0x10000 0 : List Nat).length / 0x10000 % 0x100,
                   (List.replicate 0x10000 0 : List Nat).length / 0x1000000]
              ++ List.replicate 0x10000 0) ∧
    OpData.op_push_slice [] (List.replicate 0x100000000 0) = none :=
  ⟨(op_push_slice_spec [9] (List.replicate 3 5)).1 (by rw [List.length_replicate]; norm_num),
   (op_push_slice_spec [] (List.replicate 0x4c 0)).2.1 (by rw [List.length_replicate])
     (by rw [List.length_replicate]; norm_num),
   (op_push_slice_spec [] (List.replicate 0x100 0)).2.2.1 (by rw [List.length_replicate])
     (by rw [List.length_replicate]; norm_num),
   (op_push_slice_spec [] (List.replicate 0x10000 0)).2.2.2.1 (by rw [List.length_replicate])
     (by rw [List.length_replicate]; norm_num),
   (op_push_slice_spec [] (List.replicate 0x100000000 0)).2.2.2.2 (by rw [List.length_replicate])⟩

/-- A held template for the freshness-predicate claims: height 5, capture
timestamp 100, witness commitment string `"w"`. -/
def btC5 : BlockTemplate :=
  { pool_addr := ⟨"", false⟩, pool_info := [], coinbase_tx := [], coinbase_txid := [],
    seed_hash := [], header := [], header_hash := [], prev_hash := [], timestamp := 100,
    external_txs := [], target_hex := "", bits_hex := "", witness_hex := "w",
    version := 0, height := 5 }

/-- An incoming template matching `btC5` in height and witness commitment. -/
def infoC5 : BlockTemplateInfo :=
  { version := 0, previousblockhash := "", transactions := [], coinbasevalue := 0,
    target := "", bits := "", height := 5, default_witness_commitment := "w" }

/-- C5 counterexample: with equal heights, equal witness commitments and a wall
clock (0) that has not advanced past the capture timestamp (100) at all, the
claim requires `false`, but the wrapping `u32` subtraction makes
`is_new_template` return `true`. -/
theorem is_new_template_claim_cex :
    BlockTemplate.is_new_template btC5 infoC5 0 = true ∧
    btC5.height = infoC5.height ∧
    btC5.witness_hex = infoC5.default_witness_commitment ∧
    0 < btC5.timestamp := by
  decide

/-- C5 (amended): over `u32` wall-clock and timestamp values, the predicate is
true exactly when the height differs, or the witness commitment differs, or the
wrapping 32-bit difference `now - timestamp` exceeds 60 - which for
`timestamp ≤ now` means more than 60 elapsed seconds, but which also fires
whenever the clock reads earlier than the capture timestamp by less than
`2^32 - 60`. The predicate is a total boolean function and never fails. -/
theorem is_new_template_spec (bt : BlockTemplate) (info : BlockTemplateInfo) (now : Nat)
    (hts : bt.timestamp < 2 ^ 32) (hnow : now < 2 ^ 32) :
    BlockTemplate.is_new_template bt info now = true ↔
      bt.height ≠ info.height ∨
      (bt.timestamp ≤ now ∧ 60 < now - bt.timestamp) ∨
      (now < bt.timestamp ∧ bt.timestamp - now < 2 ^ 32 - 60) ∨
      bt.witness_hex ≠ info.default_witness_commitment := by
  unfold BlockTemplate.is_new_template
  have harith : (60 < BlockTemplate.wrapSub32 (now % 2 ^ 32) bt.timestamp) ↔
      ((bt.timestamp ≤ now ∧ 60 < now - bt.timestamp) ∨
       (now < bt.timestamp ∧ bt.timestamp - now < 2 ^ 32 - 60)) := by
    unfold BlockTemplate.wrapSub32
    omega
  simp only [Bool.or_eq_true, bne_iff_ne, ne_eq, decide_eq_true_eq, gt_iff_lt]
  rw [harith]
  tauto

/-- C5 witness: the amended statement at the concrete held template, matching
incoming template, and wall clock 200. -/
theorem is_new_template_spec_witness :
    btC5.timestamp < 2 ^ 32 ∧ (200 : Nat) < 2 ^ 32 ∧
    (BlockTemplate.is_new_template btC5 infoC5 200 = true ↔
      btC5.height ≠ infoC5.height ∨
      (btC5.timestamp ≤ 200 ∧ 60 < 200 - btC5.timestamp) ∨
      (200 < btC5.timestamp ∧ btC5.timestamp - 200 < 2 ^ 32 - 60) ∨
      btC5.witness_hex ≠ infoC5.default_witness_commitment) :=
  ⟨by decide, by decide, is_new_template_spec btC5 infoC5 200 (by decide) (by decide)⟩

/-- C6: unpacking the packed nonce recovers the job identifier for every job id
in the 32-bit range and miner index in the 64-bit range. -/
theorem nonce_roundtrip (job_id miner_index : Nat)
    (hj : job_id < 2 ^ 32) (hm : miner_index < 2 ^ 64) :
    job_id_from_nonce (nonce miner_index job_id) = .ok job_id := by
  unfold job_id_from_nonce nonce
  have hbytes : ∀ b ∈ u32BE job_id ++ u64BE miner_index, b < 256 := by
    intro b hb
    simp only [u32BE, u64BE, List.mem_append, List.mem_cons, List.not_mem_nil,
      or_false] at hb
    rcases hb with (rfl | rfl | rfl | rfl) |
      (rfl | rfl | rfl | rfl | rfl | rfl | rfl | rfl) <;> omega
  rw [hexDecode_hexEncode _ hbytes]
  norm_num [u32BE, u64BE, readBE, List.take, List.foldl]
  omega

/-- C6 witness: the round trip at a concrete 32-bit job id and 64-bit miner
index. -/
theorem nonce_roundtrip_witness :
    (0xabcdef12 : Nat) < 2 ^ 32 ∧ (0x1122334455667788 : Nat) < 2 ^ 64 ∧
    job_id_from_nonce (nonce 0x1122334455667788 0xabcdef12) = .ok 0xabcdef12 :=
  ⟨by norm_num, by norm_num,
   nonce_roundtrip 0xabcdef12 0x1122334455667788 (by norm_num) (by norm_num)⟩

/-- C7: zero difficulty maps to the all-ones 256-bit target, and any nonzero
64-bit difficulty maps to `(0xFFFF << 208) / d` with truncating unsigned
division. -/
theorem diff2target_spec :
    diff2target 0 = 2 ^ 256 - 1 ∧
    ∀ d : Nat, 0 < d → d < 2 ^ 64 → diff2target d = (0xFFFF <<< 208) / d := by
  refine ⟨rfl, fun d hd _ => ?_⟩
  unfold diff2target unit_target
  rw [if_neg (by omega)]
  congr 1

/-- C7 witness: the conversion at difficulty 0 and at difficulty 4096. -/
theorem diff2target_spec_witness :
    diff2target 0 = 2 ^ 256 - 1 ∧ (0 : Nat) < 4096 ∧ (4096 : Nat) < 2 ^ 64 ∧
    diff2target 4096 = (0xFFFF <<< 208) / 4096 :=
  ⟨diff2target_spec.1, by norm_num, by norm_num,
   diff2target_spec.2 4096 (by norm_num) (by norm_num)⟩

/-- C10: `coinbase_txin` writes the script length as a single byte reduced
modulo 256 and never fails or aborts: the byte is correct for scripts up to
255 bytes and silently wrong for longer scripts. -/
theorem coinbase_txin_spec (s : List Nat) :
    BlockTemplate.coinbase_txin s =
      List.replicate 32 0 ++ List.replicate 4 0xff ++ [s.length % 256] ++ s
        ++ List.replicate 4 0xff ∧
    (s.length ≤ 255 → s.length % 256 = s.length) ∧
    (256 ≤ s.length → s.length % 256 ≠ s.length) := by
  refine ⟨rfl, fun h => Nat.mod_eq_of_lt (by omega), fun h => ?_⟩
  have h2 : s.length % 256 < 256 := Nat.mod_lt _ (by norm_num)
  omega

/-- C10 witness: a 300-byte script gets a silently wrong length byte while a
3-byte script gets a correct one. -/
theorem coinbase_txin_spec_witness :
    BlockTemplate.coinbase_txin (List.replicate 300 1) =
      List.replicate 32 0 ++ List.replicate 4 0xff
        ++ [(List.replicate 300 1 : List Nat).length % 256]
        ++ List.replicate 300 1 ++ List.replicate 4 0xff ∧
    (List.replicate 3 7 : List Nat).length % 256 = (List.replicate 3 7 : List Nat).length ∧
    (List.replicate 300 1 : List Nat).length % 256 ≠ (List.replicate 300 1 : List Nat).length :=
  ⟨(coinbase_txin_spec (List.replicate 300 1)).1,
   (coinbase_txin_spec (List.replicate 3 7)).2.1 (by rw [List.length_replicate]; norm_num),
   (coinbase_txin_spec (List.replicate 300 1)).2.2 (by rw [List.length_replicate]; norm_num)⟩

end ClaimsBatch1

section ClaimsBatch2

/-- C3: `merkel_hash` computes exactly the recursion described by the claim:
the double hash of the empty byte sequence for an empty list, the sole element
unchanged for a singleton, and otherwise the repeated
pad-odd-level-then-double-hash-consecutive-pairs reduction to a single
element (`merkleSpec`). -/
theorem merkel_hash_eq_spec (txids : List (List Nat)) :
    merkel_hash txids = merkleSpec txids := by
  by_cases h0 : txids = []
  · subst h0
    rw [merkel_hash, merkleSpec]
    simp
  by_cases h1 : txids.length = 1
  · obtain ⟨x, rfl⟩ := List.length_eq_one.mp h1
    rw [merkel_hash, merkleSpec]
    simp
  · have hp := List.length_pos.mpr h0
    rw [merkel_hash, if_neg h0, if_neg h1, merkelLoop_eq txids (by omega)]
    simp

end ClaimsBatch2

section ClaimsBatch3

set_option maxRecDepth 1000000 in
/-- C8 counterexample: the base58-check string `"7rLnRLD"` decodes to the
single-byte payload `[60]` - accepted by `Address::from_str` as a mainnet
address - yet `vout_to_miner` produces a 5-byte script, not the 25-byte script
the claim promises: the code never validates the 21-byte payload length. -/
theorem vout_to_miner_claim_cex :
    b58check_decode "7rLnRLD" = some [60] ∧
    Address.from_str "7rLnRLD" = .ok ⟨"7rLnRLD", false⟩ ∧
    Address.vout_to_miner ⟨"7rLnRLD", false⟩ = some [0x76, 0xa9, 0x14, 0x88, 0xac] ∧
    ([0x76, 0xa9, 0x14, 0x88, 0xac] : List Nat).length ≠ 25 := by
  decide

/-- C8 (amended): for any address whose checked base58 decode yields a nonempty
payload, `vout_to_miner` returns `0x76 0xa9 0x14 ++ payload[1..] ++ 0x88 0xac`
with no length validation; when the payload is exactly 21 bytes this is the
claimed 25-byte pay-to-hash script with the 20-byte hash `payload[1..21]`. -/
theorem vout_to_miner_spec (a : Address) (payload : List Nat)
    (hdec : b58check_decode a.inner = some payload) (hne : payload ≠ []) :
    Address.vout_to_miner a = some ([0x76, 0xa9, 0x14] ++ payload.drop 1 ++ [0x88, 0xac]) ∧
    (payload.length = 21 →
      Address.vout_to_miner a =
        some ([0x76, 0xa9, 0x14] ++ (payload.drop 1).take 20 ++ [0x88, 0xac]) ∧
      ([0x76, 0xa9, 0x14] ++ (payload.drop 1).take 20 ++ [0x88, 0xac]).length = 25) := by
  have hmain : Address.vout_to_miner a
      = some ([0x76, 0xa9, 0x14] ++ payload.drop 1 ++ [0x88, 0xac]) := by
    unfold Address.vout_to_miner
    simp only [hdec, if_neg hne]
  refine ⟨hmain, fun h21 => ?_⟩
  have htake : (payload.drop 1).take 20 = payload.drop 1 := by
    apply List.take_of_length_le
    simp [h21]
  constructor
  · rw [htake]
    exact hmain
  · simp [htake, h21]

set_option maxRecDepth 1000000 in
/-- C8 witness: the repository's own test address, whose payload is exactly 21
bytes, produces the claimed 25-byte script. -/
theorem vout_to_miner_spec_witness :
    b58check_decode "RNs3ne88DoNEnXFTqUrj6zrYejeQpcj4jk" =
      some [60, 149, 0, 219, 97, 53, 71, 189, 57, 112, 252, 206, 194, 167, 169, 9,
            185, 46, 117, 0, 89] ∧
    Address.vout_to_miner ⟨"RNs3ne88DoNEnXFTqUrj6zrYejeQpcj4jk", false⟩ =
      some ([0x76, 0xa9, 0x14] ++
        (([60, 149, 0, 219, 97, 53, 71, 189, 57, 112, 252, 206, 194, 167, 169, 9,
           185, 46, 117, 0, 89] : List Nat).drop 1).take 20 ++ [0x88, 0xac]) ∧
    ([0x76, 0xa9, 0x14] ++
        (([60, 149, 0, 219, 97, 53, 71, 189, 57, 112, 252, 206, 194, 167, 169, 9,
           185, 46, 117, 0, 89] : List Nat).drop 1).take 20 ++ [0x88, 0xac]).length = 25 := by
  have h := vout_to_miner_spec ⟨"RNs3ne88DoNEnXFTqUrj6zrYejeQpcj4jk", false⟩
    [60, 149, 0, 219, 97, 53, 71, 189, 57, 112, 252, 206, 194, 167, 169, 9,
     185, 46, 117, 0, 89] (by decide) (by decide)
  exact ⟨by decide, (h.2 (by decide)).1, (h.2 (by decide)).2⟩

set_option maxRecDepth 1000000 in
/-- C2 counterexample: `job_id_from_nonce` on the non-hex nonce `"zz"` aborts
(`.unwrap()` panic) instead of returning a typed error. -/
theorem decode_failure_claim_cex :
    hexDecode "zz" = none ∧
    job_id_from_nonce "zz" = .panic "hex decode unwrap" := by
  decide

/-- C2 (amended): hex-decode failures are not uniformly surfaced as typed
errors. `job_id_from_nonce` aborts (panics) on a non-hex nonce string. In
`BlockTemplate::new`, a failing witness-commitment decode alone is propagated
as a typed error with `?`, while a non-hex `previousblockhash` or `bits` field
reaches an `.unwrap()` and aborts. -/
theorem decode_failure_spec :
    (∀ s, hexDecode s = none → job_id_from_nonce s = .panic "hex decode unwrap") ∧
    (∀ (kec : List Nat → List Nat) (now : Nat) (info : BlockTemplateInfo)
      (addr : Address) (tag : List Nat),
      tag.length < 0x100000000 →
      (∃ v, Address.vout_to_miner addr = some v) →
      hexDecode info.default_witness_commitment = none →
      BlockTemplate.new kec now info addr tag = .err "hex decode error") ∧
    (∀ (kec : List Nat → List Nat) (now : Nat) (info : BlockTemplateInfo)
      (addr : Address) (tag v w : List Nat) (txs : List (List Nat)),
      tag.length < 0x100000000 →
      Address.vout_to_miner addr = some v → v.length < 0x100000000 →
      hexDecode info.default_witness_commitment = some w → w.length < 0x100000000 →
      BlockTemplate.decodeTxids info.transactions = some txs →
      hexDecode info.previousblockhash = none →
      BlockTemplate.new kec now info addr tag = .panic "previousblockhash hex unwrap") ∧
    (∀ (kec : List Nat → List Nat) (now : Nat) (info : BlockTemplateInfo)
      (addr : Address) (tag v w p : List Nat) (txs : List (List Nat)),
      tag.length < 0x100000000 →
      Address.vout_to_miner addr = some v → v.length < 0x100000000 →
      hexDecode info.default_witness_commitment = some w → w.length < 0x100000000 →
      BlockTemplate.decodeTxids info.transactions = some txs →
      hexDecode info.previousblockhash = some p →
      hexDecode info.bits = none →
      BlockTemplate.new kec now info addr tag = .panic "bits hex unwrap") := by
  refine ⟨fun s hs => ?_, ?_, ?_, ?_⟩
  · unfold job_id_from_nonce
    simp only [hs]
  · rintro kec now info addr tag htag ⟨v, hv⟩ hwit
    obtain ⟨s, hs⟩ := coinbase_script_isSome info.height tag htag
    unfold BlockTemplate.new
    simp only [hs, hv, hwit]
  · intro kec now info addr tag v w txs htag hv hvlen hwit hwlen htxs hprev
    obtain ⟨s, hs⟩ := coinbase_script_isSome info.height tag htag
    obtain ⟨ct, hct⟩ := coinbaseTxBytes_isSome (BlockTemplate.coinbase_txin s) v w
      info.coinbasevalue hvlen hwlen
    obtain ⟨cn, hcn⟩ := coinbaseNoWitBytes_isSome (BlockTemplate.coinbase_txin s) v w
      info.coinbasevalue hvlen hwlen
    unfold BlockTemplate.new
    simp only [hs, hv, hwit, hct, hcn, htxs, hprev]
  · intro kec now info addr tag v w p txs htag hv hvlen hwit hwlen htxs hprev hbits
    obtain ⟨s, hs⟩ := coinbase_script_isSome info.height tag htag
    obtain ⟨ct, hct⟩ := coinbaseTxBytes_isSome (BlockTemplate.coinbase_txin s) v w
      info.coinbasevalue hvlen hwlen
    obtain ⟨cn, hcn⟩ := coinbaseNoWitBytes_isSome (BlockTemplate.coinbase_txin s) v w
      info.coinbasevalue hvlen hwlen
    unfold BlockTemplate.new
    simp only [hs, hv, hwit, hct, hcn, htxs, hprev, hbits]

/-- A template whose witness-commitment field is not hex. -/
def infoWitErr : BlockTemplateInfo :=
  { version := 0, previousblockhash := "", transactions := [], coinbasevalue := 0,
    target := "", bits := "", height := 1, default_witness_commitment := "zz" }

/-- A template whose previous-block-hash field is not hex. -/
def infoPrevPanic : BlockTemplateInfo :=
  { version := 0, previousblockhash := "zz", transactions := [], coinbasevalue := 0,
    target := "", bits := "", height := 1, default_witness_commitment := "" }

/-- A template whose bits field is not hex. -/
def infoBitsPanic : BlockTemplateInfo :=
  { version := 0, previousblockhash := "", transactions := [], coinbasevalue := 0,
    target := "", bits := "zz", height := 1, default_witness_commitment := "" }

set_option maxRecDepth 1000000 in
/-- C2 witness: the amended behavior instantiated at concrete malformed
templates over the crafted pool address. -/
theorem decode_failure_spec_witness :
    job_id_from_nonce "xy" = .panic "hex decode unwrap" ∧
    BlockTemplate.new (fun _ => []) 0 infoWitErr ⟨"7rLnRLD", false⟩ [] =
      .err "hex decode error" ∧
    BlockTemplate.new (fun _ => []) 0 infoPrevPanic ⟨"7rLnRLD", false⟩ [] =
      .panic "previousblockhash hex unwrap" ∧
    BlockTemplate.new (fun _ => []) 0 infoBitsPanic ⟨"7rLnRLD", false⟩ [] =
      .panic "bits hex unwrap" :=
  ⟨decode_failure_spec.1 "xy" (by decide),
   decode_failure_spec.2.1 (fun _ => []) 0 infoWitErr ⟨"7rLnRLD", false⟩ []
     (by decide) ⟨[0x76, 0xa9, 0x14, 0x88, 0xac], by decide⟩ (by decide),
   decode_failure_spec.2.2.1 (fun _ => []) 0 infoPrevPanic ⟨"7rLnRLD", false⟩ []
     [0x76, 0xa9, 0x14, 0x88, 0xac] [] [] (by decide) (by decide) (by decide)
     (by decide) (by decide) (by decide) (by decide),
   decode_failure_spec.2.2.2 (fun _ => []) 0 infoBitsPanic ⟨"7rLnRLD", false⟩ []
     [0x76, 0xa9, 0x14, 0x88, 0xac] [] [] [] (by decide) (by decide) (by decide)
     (by decide) (by decide) (by decide) (by decide) (by decide)⟩

end ClaimsBatch3

section ClaimsBatch4

/-- C9: whenever `BlockTemplate::new` succeeds on a template whose
previous-block-hash decodes to 32 bytes and whose bits field decodes to 4
bytes, the produced header is exactly 80 bytes: 4-byte little-endian version,
the 32-byte reversed previous hash, the 32-byte Merkle root, the 4-byte
little-endian capture timestamp, the 4-byte reversed bits, and the 4-byte
little-endian height. -/
theorem header_layout (kec : List Nat → List Nat) (now : Nat) (info : BlockTemplateInfo)
    (addr : Address) (tag : List Nat) (bt : BlockTemplate) (p b : List Nat)
    (hp : hexDecode info.previousblockhash = some p) (hplen : p.length = 32)
    (hb : hexDecode info.bits = some b) (hblen : b.length = 4)
    (hnew : BlockTemplate.new kec now info addr tag = .ok bt) :
    bt.header.length = 80 ∧
    ∃ root, root.length = 32 ∧
      bt.header = u32LE info.version ++ p.reverse ++ root ++ u32LE bt.timestamp
        ++ b.reverse ++ u32LE info.height := by
  cases hs : Script.coinbase_script info.height tag with
  | none =>
    unfold BlockTemplate.new at hnew
    rw [hs] at hnew
    simp at hnew
  | some script =>
  cases hv : Address.vout_to_miner addr with
  | none =>
    unfold BlockTemplate.new at hnew
    rw [hs, hv] at hnew
    simp at hnew
  | some v =>
  cases hw : hexDecode info.default_witness_commitment with
  | none =>
    unfold BlockTemplate.new at hnew
    rw [hs, hv, hw] at hnew
    simp at hnew
  | some w =>
  cases hct : BlockTemplate.coinbaseTxBytes (BlockTemplate.coinbase_txin script) v w
      info.coinbasevalue with
  | none =>
    unfold BlockTemplate.new at hnew
    simp only [hs, hv, hw, hct] at hnew
    simp at hnew
  | some ct =>
  cases hcn : BlockTemplate.coinbaseNoWitBytes (BlockTemplate.coinbase_txin script) v w
      info.coinbasevalue with
  | none =>
    unfold BlockTemplate.new at hnew
    simp only [hs, hv, hw, hct, hcn] at hnew
    simp at hnew
  | some cn =>
  cases htxs : BlockTemplate.decodeTxids info.transactions with
  | none =>
    unfold BlockTemplate.new at hnew
    simp only [hs, hv, hw, hct, hcn, htxs] at hnew
    simp at hnew
  | some txs =>
  have hval : BlockTemplate.new kec now info addr tag = .ok
      { pool_addr := addr
        pool_info := tag
        coinbase_tx := ct
        coinbase_txid := dsha256 cn
        seed_hash := BlockTemplate.seedHash kec info.height
        header := OpData.push_u32 (OpData.push_slice (OpData.push_u32 (OpData.push_slice
          (OpData.push_slice (OpData.push_u32 [] info.version) p.reverse)
          (merkel_hash (dsha256 cn :: txs))) (now % 2 ^ 32)) b.reverse) info.height
        header_hash := (dsha256 (OpData.push_u32 (OpData.push_slice (OpData.push_u32
          (OpData.push_slice (OpData.push_slice (OpData.push_u32 [] info.version) p.reverse)
          (merkel_hash (dsha256 cn :: txs))) (now % 2 ^ 32)) b.reverse) info.height)).reverse
        prev_hash := p.reverse
        timestamp := now % 2 ^ 32
        external_txs := info.transactions.map (·.data)
        target_hex := info.target
        bits_hex := info.bits
        witness_hex := info.default_witness_commitment
        version := info.version
        height := info.height } := by
    unfold BlockTemplate.new
    simp only [hs, hv, hw, hct, hcn, htxs, hp, hb]
  rw [hval, RResult.ok.injEq] at hnew
  subst hnew
  have hroot : (merkel_hash (dsha256 cn :: txs)).length = 32 := by
    apply merkel_hash_length32
    intro x hx
    rcases List.mem_cons.mp hx with rfl | hx2
    · exact dsha256_length _
    · exact decodeTxids_mem32 _ _ htxs x hx2
  constructor
  · simp [OpData.push_u32, OpData.push_slice, u32LE, hplen, hblen, hroot]
  · exact ⟨merkel_hash (dsha256 cn :: txs), hroot, by
      simp [OpData.push_u32, OpData.push_slice, u32LE, List.append_assoc]⟩

/-- A well-formed concrete template: 64-hex-zero previous hash, 8-hex bits,
no external transactions, empty witness commitment. -/
def infoW : BlockTemplateInfo :=
  { version := 7
    previousblockhash := "0000000000000000000000000000000000000000000000000000000000000000"
    transactions := []
    coinbasevalue := 5000
    target := "t"
    bits := "1a5ab50d"
    height := 1
    default_witness_commitment := "" }

/-- The block template `BlockTemplate::new` produces from `infoW` over the
crafted pool address with wall clock 99. -/
def btW : BlockTemplate :=
  { pool_addr := { inner := "7rLnRLD", testnet := false }
    pool_info := []
    coinbase_tx := [1, 0, 0, 0, 0, 1, 1, 0, 0, 0, 0, 0, 0, 0, 0, 0, 0, 0, 0, 0, 0, 0,
      0, 0, 0, 0, 0, 0, 0, 0, 0, 0, 0, 0, 0, 0, 0, 0, 0, 255, 255, 255, 255, 4, 1, 1,
      0, 0, 255, 255, 255, 255, 2, 136, 19, 0, 0, 0, 0, 0, 0, 5, 118, 169, 20, 136,
      172, 0, 0, 0, 0, 0, 0, 0, 0, 0, 1, 32, 0, 0, 0, 0, 0, 0, 0, 0, 0, 0, 0, 0, 0, 0,
      0, 0, 0, 0, 0, 0, 0, 0, 0, 0, 0, 0, 0, 0, 0, 0, 0, 0, 0, 0, 0, 0]
    coinbase_txid := [208, 242, 60, 209, 145, 152, 194, 165, 60, 133, 231, 201, 4, 46,
      100, 204, 75, 131, 164, 253, 13, 26, 83, 248, 158, 244, 170, 21, 36, 18, 167, 190]
    seed_hash := List.replicate 32 0
    header := [7, 0, 0, 0, 0, 0, 0, 0, 0, 0, 0, 0, 0, 0, 0, 0, 0, 0, 0, 0, 0, 0, 0, 0,
      0, 0, 0, 0, 0, 0, 0, 0, 0, 0, 0, 0, 208, 242, 60, 209, 145, 152, 194, 165, 60,
      133, 231, 201, 4, 46, 100, 204, 75, 131, 164, 253, 13, 26, 83, 248, 158, 244,
      170, 21, 36, 18, 167, 190, 99, 0, 0, 0, 13, 181, 90, 26, 1, 0, 0, 0]
    header_hash := [91, 3, 53, 98, 197, 137, 41, 71, 252, 116, 115, 204, 247, 19, 112,
      10, 65, 139, 161, 9, 35, 197, 155, 161, 56, 171, 47, 143, 28, 214, 255, 134]
    prev_hash := List.replicate 32 0
    timestamp := 99
    external_txs := []
    target_hex := "t"
    bits_hex := "1a5ab50d"
    witness_hex := ""
    version := 7
    height := 1 }

set_option maxRecDepth 1000000 in
/-- C9 witness: the header-layout statement at the concrete valid template
`infoW`, producing `btW`. -/
theorem header_layout_witness :
    hexDecode infoW.previousblockhash = some (List.replicate 32 0) ∧
    hexDecode infoW.bits = some [26, 90, 181, 13] ∧
    BlockTemplate.new (fun _ => []) 99 infoW ⟨"7rLnRLD", false⟩ [] = .ok btW ∧
    (btW.header.length = 80 ∧
      ∃ root, root.length = 32 ∧
        btW.header = u32LE infoW.version ++ (List.replicate 32 0).reverse ++ root
          ++ u32LE btW.timestamp ++ ([26, 90, 181, 13] : List Nat).reverse
          ++ u32LE infoW.height) :=
  ⟨by decide, by decide, by decide,
   header_layout (fun _ => []) 99 infoW ⟨"7rLnRLD", false⟩ [] btW
     (List.replicate 32 0) [26, 90, 181, 13]
     (by decide) (by decide) (by decide) (by decide) (by decide)⟩

end ClaimsBatch4
